import Mathlib

set_option maxHeartbeats 1000000

/-!
Verification development for the PRSummarizer.ai coordination substrate.

The definitions below are shallow embeddings of the Python sources:
  * `backend_server.py`  — event classification (`receive_agent_message`), the
    SSE relay loop of `event_stream`, and the per-session FIFO user-message
    queue of `MessageStore`;
  * `shared/backend_tools.py` — `send_action_update`;
  * `shared/github_fetcher.py` — `fetch_pr_info` and its URL regex;
  * `shared/input_parser.py` — `extract_pr_url_and_request` and its URL regex;
  * `shared/voice_over.py` / `agents/voice_agent.py` — `generate_voice_over`
    and the `generate_voice_tool` wrapper;
  * `agents/*_agent.py` — the per-iteration reply handling of each agent loop.

External effects (HTTP transport, the GitHub provider, the ElevenLabs
provider, clock reads) are passed in as explicit oracle arguments so that the
functions stay pure while following the source control flow branch by branch.
-/

namespace PRSummarizer

/-! ### JSON-like values

`receive_agent_message` in `backend_server.py` receives a JSON object
(`request_data : dict`).  We embed just enough of JSON for the payloads the
system builds: strings, integers and nested objects. -/

inductive JVal where
  | jstr (s : String)
  | jnum (n : Int)
  | jobj (fields : List (String × JVal))

/-- Association lookup, embedding Python `key in dict` / `dict.get(key)`
for the (duplicate-free) JSON objects used by the system. -/
def lookupJ : List (String × JVal) → String → Option JVal
  | [], _ => none
  | (k, v) :: rest, key => if k = key then some v else lookupJ rest key

/-- Embeds Python `request_data.get(key, dflt)`. -/
def jgetD (rd : List (String × JVal)) (k : String) (dflt : JVal) : JVal :=
  (lookupJ rd k).getD dflt

/-- Python `str()` display of the scalar JSON values the system formats into
f-strings (only scalars are ever formatted by the embedded code paths). -/
def jshow : JVal → String
  | .jstr s => s
  | .jnum n => toString n
  | .jobj _ => "[object]"

/-- Python `status == "failed"` where `status` may be any JSON value:
a non-string value never equals a string. -/
def jvalIsFailed : JVal → Bool
  | .jstr s => s = "failed"
  | _ => false

/-! ### SSE events and the backend classifier -/

/-- One server-sent event as stored by `message_store.add_message`:
an event type tag and the event payload. -/
structure EventMsg where
  event : String
  data : JVal

/-- The stream-ending test of the relay loop in `event_stream`
(`backend_server.py` line 492): `msg['event'] in ['complete', 'error']`. -/
def isTerminalEvent (e : String) : Bool := e = "complete" || e = "error"

/-- Embeds `receive_agent_message` (`backend_server.py` lines 337-398): normalizes an
inbound agent payload into one canonical SSE event.  `now` stands for
`int(time.time() * 1000)`. -/
def receive_agent_message (now : Int) (request_data : List (String × JVal)) : EventMsg :=
  if (lookupJ request_data "agent_id").isSome then
    -- internal format branch
    let action := jgetD request_data "action" (.jstr "Unknown Action")
    let detail := jgetD request_data "detail" (.jstr "")
    let status := jgetD request_data "status" (.jstr "running")
    if jvalIsFailed status then
      ⟨"error", .jobj [("error", .jstr (jshow action ++ ": " ++ jshow detail))]⟩
    else
      ⟨"action", .jobj [("timestamp", .jnum now), ("action", action), ("detail", detail),
        ("status", status), ("source", jgetD request_data "agent_id" (.jstr "unknown"))]⟩
  else if (lookupJ request_data "summary").isSome then
    -- direct custom tool call format: completion message
    ⟨"complete", .jobj [("summary", jgetD request_data "summary" (.jstr "")),
      ("risk_report", jgetD request_data "risk_report" (.jstr "")),
      ("output", jgetD request_data "output" (jgetD request_data "summary" (.jstr ""))),
      ("voice_url", jgetD request_data "voice_url" (.jstr ""))]⟩
  else if (lookupJ request_data "error").isSome then
    ⟨"error", .jobj [("error", jgetD request_data "error" (.jstr "Unknown error"))]⟩
  else
    ⟨"action", .jobj [("timestamp", .jnum now),
      ("action", jgetD request_data "action" (.jstr "Processing")),
      ("detail", jgetD request_data "detail" (.jstr "Agent is working...")),
      ("status", jgetD request_data "status" (.jstr "running")),
      ("source", jgetD request_data "name" (.jstr "unknown"))]⟩

/-! ### The agent-side tool `send_action_update` (`shared/backend_tools.py`) -/

/-- Outcome of the single `requests.post` performed by a backend tool:
either a response with a status code, or a raised transport exception. -/
inductive Transport where
  | response (code : Nat)
  | raised (msg : String)

/-- The JSON payload built by `send_action_update` (`backend_tools.py`
lines 32-42).  Note the `action`/`detail`/`status` fields sit inside the
nested `data` object, not at top level. -/
def sendActionUpdatePayload (agent_id action detail status : String) (t : Int) :
    List (String × JVal) :=
  [("agent_id", .jstr agent_id), ("event_type", .jstr "action"),
   ("data", .jobj [("timestamp", .jnum t), ("action", .jstr action),
     ("detail", .jstr detail), ("status", .jstr status), ("source", .jstr agent_id)])]

/-- Result string of `send_action_update` (`backend_tools.py` lines 44-56): the
whole body is wrapped in `try/except`, so every transport outcome is turned
into a returned string and nothing escapes into the agent loop. -/
def send_action_update (action : String) (tr : Transport) : String :=
  match tr with
  | .response code =>
      if code = 200 then "Action update sent successfully: " ++ action
      else "Failed to send action update: " ++ toString code
  | .raised e => "Error sending action update: " ++ e

/-! ### The SSE relay loop of `event_stream` (`backend_server.py` 484-507)

The loop repeatedly awaits the connection queue with a 60 s timeout; a
delivered event is yielded and terminal events break the loop, while a
timeout yields a synthetic keepalive `action` event and continues. -/

/-- One observation of the relay loop: either an event arrived on the
connection queue, or the 60-second wait timed out at time `t`. -/
inductive StreamItem where
  | arrival (m : EventMsg)
  | timeout (t : Int)

/-- The keepalive event built in the `asyncio.TimeoutError` handler. -/
def keepaliveEvent (t : Int) : EventMsg :=
  ⟨"action", .jobj [("timestamp", .jnum t), ("action", .jstr "Waiting for Analysis"),
    ("detail", .jstr "Agents are processing your request..."),
    ("status", .jstr "running"), ("source", .jstr "backend")]⟩

/-- The receive loop of `event_stream`: the sequence of events the client
observes for a given sequence of queue deliveries/timeouts. -/
def event_stream_relay : List StreamItem → List EventMsg
  | [] => []
  | .timeout t :: rest => keepaliveEvent t :: event_stream_relay rest
  | .arrival m :: rest =>
      m :: (if isTerminalEvent m.event then [] else event_stream_relay rest)

/-! ### The per-session FIFO user-message queue (`backend_server.py` 42-90, 540-547) -/

/-- Association-list lookup on `user_message_queues` (a Python dict keyed by
session id). -/
def lookupQ : List (String × List String) → String → Option (List String)
  | [], _ => none
  | (k, v) :: rest, key => if k = key then some v else lookupQ rest key

/-- Dict update `user_message_queues[sid] = q` (insert or overwrite). -/
def setQ : List (String × List String) → String → List String →
    List (String × List String)
  | [], key, q => [(key, q)]
  | (k, v) :: rest, key, q =>
      if k = key then (k, q) :: rest else (k, v) :: setQ rest key q

/-- The `user_message_queues` field of `MessageStore`. -/
structure MessageStoreState where
  user_message_queues : List (String × List String)

/-- The queue currently associated with a session (empty when the session has
no entry — both states behave identically in the source). -/
def qOf (s : MessageStoreState) (sid : String) : List String :=
  (lookupQ s.user_message_queues sid).getD []

/-- Embeds `MessageStore.add_user_message`: initialize the session's queue when
missing, then append. -/
def add_user_message (s : MessageStoreState) (sid m : String) : MessageStoreState :=
  ⟨setQ s.user_message_queues sid (qOf s sid ++ [m])⟩

/-- Embeds `MessageStore.get_user_message`: pop the head of the session's queue when
present and non-empty, else return `None` (never an error). -/
def get_user_message (s : MessageStoreState) (sid : String) :
    Option String × MessageStoreState :=
  match lookupQ s.user_message_queues sid with
  | some (m :: rest) => (some m, ⟨setQ s.user_message_queues sid rest⟩)
  | _ => (none, s)

/-- Endpoint `GET /session/{session_id}/message` (`get_user_message_endpoint`,
`backend_server.py` lines 540-547): pops via `get_user_message`, then tests
Python truthiness (`if message:`), so a popped empty-string message — falsy —
is reported as the no-message sentinel even though it was consumed. -/
def get_user_message_endpoint (s : MessageStoreState) (sid : String) :
    (Option String × Bool) × MessageStoreState :=
  match get_user_message s sid with
  | (some m, s2) => if m = "" then ((none, false), s2) else ((some m, true), s2)
  | (none, s2) => ((none, false), s2)

/-- The endpoint's response as a function of the popped queue entry. -/
def endpointResp : Option String → Option String × Bool
  | some m => if m = "" then (none, false) else (some m, true)
  | none => (none, false)

/-- A client-visible operation against one session's queue: the backend
enqueuing a user message, or the orchestrator polling the endpoint. -/
inductive QOp where
  | enq (m : String)
  | poll

/-- Run a sequence of operations against the store, collecting the endpoint
response of every poll in order. -/
def runPolls (sid : String) : List QOp → MessageStoreState → List (Option String × Bool)
  | [], _ => []
  | .enq m :: rest, s => runPolls sid rest (add_user_message s sid m)
  | .poll :: rest, s =>
      (get_user_message_endpoint s sid).1 ::
        runPolls sid rest (get_user_message_endpoint s sid).2

/-- Reference semantics: the same operations applied to a plain FIFO list. -/
def specRun : List QOp → List String → List (Option String)
  | [], _ => []
  | .enq m :: rest, q => specRun rest (q ++ [m])
  | .poll :: rest, [] => none :: specRun rest []
  | .poll :: rest, m :: q => some m :: specRun rest q

/-- The messages enqueued by an operation sequence, in order. -/
def enqProj : List QOp → List String
  | [] => []
  | .enq m :: rest => m :: enqProj rest
  | .poll :: rest => enqProj rest

/-- Number of polls in an operation sequence. -/
def pollCount : List QOp → Nat
  | [] => 0
  | .enq _ :: rest => pollCount rest
  | .poll :: rest => pollCount rest + 1

/-- FIFO-consistency of an interleaving, tracking the queue length `n`: a
poll may find the queue empty only once no further enqueues remain (so every
message is consumed by the poll that follows its enqueue, in order). -/
def fifoOk : List QOp → Nat → Bool
  | [], _ => true
  | .enq _ :: rest, n => fifoOk rest (n + 1)
  | .poll :: rest, n + 1 => fifoOk rest n
  | .poll :: rest, 0 => (enqProj rest).isEmpty && fifoOk rest 0

/-! ### Agent runtime loops (`agents/*_agent.py`)

Each loop iteration does `resp = await camel_agent.astep(...)` and then
handles `resp.msgs`.  The orchestrator guards the empty case
(`if (not resp.msgs): continue`, `orchestrator_agent.py` lines 60-61); the
summarizer, risk and voice loops index `resp.msgs[0]` unguarded
(`summarizer_agent.py` line 64, `risk_agent.py` line 64,
`voice_agent.py` line 69), which raises `IndexError` on an empty list. -/

/-- The decision-step response visible to a loop iteration. -/
structure AgentStepResponse where
  msgs : List String

/-- Outcome of one loop iteration's reply handling. -/
inductive LoopIterOutcome where
  | continued
  | processed (m : String)
  | crashed (err : String)
deriving DecidableEq

/-- Orchestrator loop reply handling (`orchestrator_agent.py` 59-65). -/
def orchestrator_loop_iter (resp : AgentStepResponse) : LoopIterOutcome :=
  match resp.msgs with
  | [] => .continued
  | m :: _ => .processed m

/-- Summarizer loop reply handling (`summarizer_agent.py` 63-67). -/
def summarizer_loop_iter (resp : AgentStepResponse) : LoopIterOutcome :=
  match resp.msgs with
  | [] => .crashed "IndexError"
  | m :: _ => .processed m

/-- Risk loop reply handling (`risk_agent.py` 63-67). -/
def risk_loop_iter (resp : AgentStepResponse) : LoopIterOutcome :=
  match resp.msgs with
  | [] => .crashed "IndexError"
  | m :: _ => .processed m

/-- Voice loop reply handling (`voice_agent.py` 68-72). -/
def voice_loop_iter (resp : AgentStepResponse) : LoopIterOutcome :=
  match resp.msgs with
  | [] => .crashed "IndexError"
  | m :: _ => .processed m

/-! ### Voice synthesis (`shared/voice_over.py`, `agents/voice_agent.py`) -/

/-- Python truthiness of an optional string (`if not api_key:` treats both
`None` and the empty string as missing). -/
def pyStrTruthy : Option String → Option String
  | some s => if s = "" then none else some s
  | none => none

/-- Python `voice_id or os.getenv("ELEVENLABS_VOICE_ID")`. -/
def pyOrStr (a b : Option String) : Option String :=
  match pyStrTruthy a with
  | some s => some s
  | none => b

/-- The environment variables consulted by `generate_voice_over`. -/
structure VoiceEnv where
  elevenlabs_api_key : Option String
  elevenlabs_voice_id : Option String
  voice_over_dir : Option String

/-- Outcome of the single `requests.post` to the ElevenLabs endpoint. -/
inductive HttpOutcome where
  | ok (audio : String)
  | apiError (code : Nat) (body : String)
  | requestError (msg : String)

/-- Result of one `generate_voice_over` call: the value returned or the
`RuntimeError` message raised, plus whether the HTTP POST was performed. -/
structure VoiceCallResult where
  result : Except String String
  httpCalled : Bool

/-- Embeds `str(Path(dir) / name)` for the plain directory strings the system uses
(`Path("") / name` collapses to `name`). -/
def pathJoin (dir name : String) : String :=
  if dir = "" then name else dir ++ "/" ++ name

/-- The output path `output_dir / f"voice_{voice}_{timestamp}.mp3"` written
by `generate_voice_over` (`voice_over.py` lines 95-100). -/
def voiceOutputPath (env : VoiceEnv) (voice : String) (t : Nat) : String :=
  pathJoin (env.voice_over_dir.getD "voice_over_outputs")
    ("voice_" ++ voice ++ "_" ++ toString t ++ ".mp3")

/-- Embeds `generate_voice_over` (`voice_over.py` lines 30-108): raises
`RuntimeError` (modelled as `.error`) when the API key or the voice identity
is missing — both before any HTTP call — and on transport/API failure; on
success writes the audio and returns the written path. -/
def generate_voice_over (env : VoiceEnv) (voice_id : Option String) (t : Nat)
    (http : HttpOutcome) : VoiceCallResult :=
  match pyStrTruthy env.elevenlabs_api_key with
  | none => ⟨.error "ELEVENLABS_API_KEY not configured.", false⟩
  | some _ =>
    match pyStrTruthy (pyOrStr voice_id env.elevenlabs_voice_id) with
    | none =>
        ⟨.error "Voice ID not provided. Set ELEVENLABS_VOICE_ID or pass voice_id explicitly.",
         false⟩
    | some voice =>
      match http with
      | .requestError e => ⟨.error ("Voice-over request failed: " ++ e), true⟩
      | .apiError code body =>
          ⟨.error ("ElevenLabs API error " ++ toString code ++ ": " ++ body.take 200), true⟩
      | .ok _ => ⟨.ok (voiceOutputPath env voice t), true⟩

/-- Embeds `generate_voice_tool` (`voice_agent.py` lines 36-43): the tool boundary
catches every exception and flattens both outcomes to a string. -/
def generate_voice_tool (env : VoiceEnv) (voice_id : Option String) (t : Nat)
    (http : HttpOutcome) : String :=
  match (generate_voice_over env voice_id t http).result with
  | .ok p => "Voice-over generated successfully. File saved at: " ++ p
  | .error e => "Voice generation failed: " ++ e

/-- Whether a reference is in a client-servable form: an absolute URL or a
server-relative reference (the form the spec claims the voice tool returns). -/
def servableRef (s : String) : Bool :=
  "http://".data.isPrefixOf s.data || "https://".data.isPrefixOf s.data ||
    "/".data.isPrefixOf s.data

/-! ### Message broker (mention-addressed pub/sub)

The broker itself (the Coral server) is not part of `src/`; only its client
prompts and tool descriptions are (`agents/prompts.py` lines 35-59). -/

/-- A broker message: sender, addressed mentions, content. -/
structure BMessage where
  sender : String
  mentions : List String
  content : String
deriving DecidableEq

/-- Modelled from the spec: the per-session broker state missing from `src/`
(the external Coral server) — an append-only message log plus one implicit
mention cursor per agent ("since last wait-for-mentions call", spec §3). -/
structure Broker where
  log : List BMessage
  cursors : List (String × Nat)

/-- The mention cursor of an agent (starts at the beginning of the log). -/
def cursorOf (b : Broker) (a : String) : Nat :=
  (b.cursors.lookup a).getD 0

/-- Update an agent's cursor. -/
def setCursor : List (String × Nat) → String → Nat → List (String × Nat)
  | [], key, n => [(key, n)]
  | (k, v) :: rest, key, n =>
      if k = key then (k, n) :: rest else (k, v) :: setCursor rest key n

/-- Modelled from the spec: `send_message` appends to the session's message
log owned by the broker (spec §3 "the broker exclusively owns the message
log per session; agents only ever append or read a filtered view"). -/
def send_message (b : Broker) (m : BMessage) : Broker :=
  ⟨b.log ++ [m], b.cursors⟩

/-- Modelled from the spec: `wait_for_mentions(agent)` returns the messages
appended since the agent's previous poll whose mentions include the agent
("a message with empty mentions is dropped/unseen", "an agent only observes
messages appended since its previous poll", spec §3-§4.1), advancing the
agent's cursor to the end of the log. -/
def wait_for_mentions (b : Broker) (a : String) : List BMessage × Broker :=
  ((b.log.drop (cursorOf b a)).filter (fun m => m.mentions.contains a),
   ⟨b.log, setCursor b.cursors a b.log.length⟩)

/-! ### GitHub PR URL regexes

`github_fetcher.py` uses `re.match(r"https://github.com/([^/]+)/([^/]+)/pull/(\d+)", url)`
(anchored prefix match); `input_parser.py` uses
`re.compile(r"https://github.com/[^/\s]+/[^/\s]+/pull/\d+").search(text)`.
Since `[^/...]` can never cross a `/` and every literal after a greedy class
is `/`, the regex engine's backtracking never changes the outcome and both
regexes reduce to the deterministic segment parser below, parameterized by
the character class of the owner/repo segments. -/

/-- The literal prefix `https://github.com/`. -/
def ghLit : List Char := "https://github.com/".data

/-- The literal `/pull/`. -/
def pullLit : List Char := "/pull/".data

/-- Match a literal, returning the remainder. -/
def litDrop : List Char → List Char → Option (List Char)
  | [], cs => some cs
  | _ :: _, [] => none
  | l :: ls, c :: cs => if c = l then litDrop ls cs else none

/-- Greedy `p+`: one or more characters satisfying `p`, and the remainder. -/
def seg (p : Char → Bool) (cs : List Char) : Option (List Char × List Char) :=
  if cs.takeWhile p = [] then none else some (cs.takeWhile p, cs.dropWhile p)

/-- Expect a literal `/`. -/
def expectSlash : List Char → Option (List Char)
  | c :: rest => if c = '/' then some rest else none
  | [] => none

/-- The Unicode `Nd` (decimal digit) code-point ranges, per Unicode 15.0 as
shipped with CPython 3.12: this is the character class Python's `\d` matches
in a `str` pattern. -/
def pyDigitRanges : List (Nat × Nat) :=
  [(0x30, 0x39), (0x660, 0x669), (0x6F0, 0x6F9), (0x7C0, 0x7C9), (0x966, 0x96F),
   (0x9E6, 0x9EF), (0xA66, 0xA6F), (0xAE6, 0xAEF), (0xB66, 0xB6F), (0xBE6, 0xBEF),
   (0xC66, 0xC6F), (0xCE6, 0xCEF), (0xD66, 0xD6F), (0xDE6, 0xDEF), (0xE50, 0xE59),
   (0xED0, 0xED9), (0xF20, 0xF29), (0x1040, 0x1049), (0x1090, 0x1099), (0x17E0, 0x17E9),
   (0x1810, 0x1819), (0x1946, 0x194F), (0x19D0, 0x19D9), (0x1A80, 0x1A89),
   (0x1A90, 0x1A99), (0x1B50, 0x1B59), (0x1BB0, 0x1BB9), (0x1C40, 0x1C49),
   (0x1C50, 0x1C59), (0xA620, 0xA629), (0xA8D0, 0xA8D9), (0xA900, 0xA909),
   (0xA9D0, 0xA9D9), (0xA9F0, 0xA9F9), (0xAA50, 0xAA59), (0xABF0, 0xABF9),
   (0xFF10, 0xFF19), (0x104A0, 0x104A9), (0x10D30, 0x10D39), (0x11066, 0x1106F),
   (0x110F0, 0x110F9), (0x11136, 0x1113F), (0x111D0, 0x111D9), (0x112F0, 0x112F9),
   (0x11450, 0x11459), (0x114D0, 0x114D9), (0x11650, 0x11659), (0x116C0, 0x116C9),
   (0x11730, 0x11739), (0x118E0, 0x118E9), (0x11950, 0x11959), (0x11C50, 0x11C59),
   (0x11D50, 0x11D59), (0x11DA0, 0x11DA9), (0x11F50, 0x11F59), (0x16A60, 0x16A69),
   (0x16AC0, 0x16AC9), (0x16B50, 0x16B59), (0x1D7CE, 0x1D7FF), (0x1E140, 0x1E149),
   (0x1E2F0, 0x1E2F9), (0x1E4F0, 0x1E4F9), (0x1E950, 0x1E959), (0x1FBF0, 0x1FBF9)]

/-- Python `\d` in a `str` pattern: a Unicode decimal digit (category `Nd`),
e.g. it accepts `٣` (`U+0663`) as well as ASCII digits. -/
def isPyDigit (c : Char) : Bool :=
  pyDigitRanges.any fun r => r.1 ≤ c.toNat && c.toNat ≤ r.2

/-- The captures of a successful PR-URL match plus the unmatched remainder. -/
structure UrlParts where
  owner : List Char
  repo : List Char
  digits : List Char
  rest : List Char

/-- Prefix match of `https://github.com/(seg)/(seg)/pull/(\d+)` at the head
of `cs`, with `p` the owner/repo segment character class. -/
def urlParse (p : Char → Bool) (cs : List Char) : Option UrlParts :=
  (litDrop ghLit cs).bind fun r1 =>
  (seg p r1).bind fun s1 =>
  (expectSlash s1.2).bind fun r3 =>
  (seg p r3).bind fun s2 =>
  (litDrop pullLit s2.2).bind fun r5 =>
  (seg isPyDigit r5).map fun s3 => ⟨s1.1, s2.1, s3.1, s3.2⟩

/-- The full matched text of a successful match. -/
def UrlParts.matched (u : UrlParts) : List Char :=
  ghLit ++ u.owner ++ '/' :: (u.repo ++ pullLit ++ u.digits)

/-- Owner/repo character class of the `github_fetcher.py` regex: `[^/]`. -/
def ghChar (c : Char) : Bool := !(c = '/')

/-- Python whitespace: the exact `Py_UNICODE_ISSPACE` table CPython uses for
both `\s` in `str` regexes and `str.strip()` — `U+0009`-`U+000D`,
`U+001C`-`U+001F`, space, `U+0085`, `U+00A0`, `U+1680`, `U+2000`-`U+200A`,
`U+2028`, `U+2029`, `U+202F`, `U+205F`, `U+3000`. -/
def pyWs (c : Char) : Bool :=
  (0x09 ≤ c.toNat && c.toNat ≤ 0x0D) || (0x1C ≤ c.toNat && c.toNat ≤ 0x1F) ||
  c.toNat = 0x20 || c.toNat = 0x85 || c.toNat = 0xA0 || c.toNat = 0x1680 ||
  (0x2000 ≤ c.toNat && c.toNat ≤ 0x200A) ||
  c.toNat = 0x2028 || c.toNat = 0x2029 || c.toNat = 0x202F || c.toNat = 0x205F ||
  c.toNat = 0x3000

/-- Owner/repo character class of the `input_parser.py` regex: `[^/\s]`. -/
def urlChar (c : Char) : Bool := !(c = '/') && !(pyWs c)

/-- Embeds `re.search`: try a match at each position left to right; returns the text
before the match, the matched text, and the text after it. -/
def reSearch (p : Char → Bool) : List Char → Option (List Char × List Char × List Char)
  | [] => none
  | c :: cs =>
    match urlParse p (c :: cs) with
    | some u => some ([], u.matched, u.rest)
    | none =>
      match reSearch p cs with
      | some (pre, m, rest) => some (c :: pre, m, rest)
      | none => none

/-- A list of characters of the exact shape
`https://github.com/<owner>/<repo>/pull/<digits>` with non-empty segments
drawn from the class `p` and non-empty digits: the spec-side reading of
"a substring matching the PR-URL shape". -/
def UrlShape (p : Char → Bool) (mid : List Char) : Prop :=
  ∃ o r d, o ≠ [] ∧ r ≠ [] ∧ d ≠ [] ∧
    (∀ c ∈ o, p c = true) ∧ (∀ c ∈ r, p c = true) ∧ (∀ c ∈ d, isPyDigit c = true) ∧
    mid = ghLit ++ o ++ '/' :: (r ++ pullLit ++ d)

/-! ### `fetch_pr_info` (`shared/github_fetcher.py` lines 22-87) -/

/-- The PR metadata the GitHub provider returns on success (the `pr` object
fields read by `fetch_pr_info`). -/
structure PRData where
  title : String
  author : String
  state : String
  draft : Bool
  body : Option String
  changed_files : Nat
  additions : Nat
  deletions : Nat
  files : List String
  merged : Bool
  comments : List (String × String)

/-- Embeds `pr.body[:500] if pr.body else 'No description'` (`None` and `""` are
both falsy). -/
def descText : Option String → String
  | some b => if b = "" then "No description" else b.take 500
  | none => "No description"

/-- Embeds `', '.join(files[:10])`. -/
def joinSep (sep : String) : List String → String
  | [] => ""
  | [x] => x
  | x :: y :: rest => x ++ sep ++ joinSep sep (y :: rest)

/-- Embeds `'; '.join(comments) if comments else 'No comments'` over
`f"{c.user.login}: {c.body[:100]}"` for the first five comments. -/
def commentsText (cs : List (String × String)) : String :=
  match cs.take 5 with
  | [] => "No comments"
  | l => joinSep "; " (l.map (fun c => c.1 ++ ": " ++ (c.2.take 100)))

/-- The snapshot string built by `fetch_pr_info` on provider success
(`github_fetcher.py` lines 66-76). -/
def prSummary (owner repo num : String) (pr : PRData) : String :=
  "PR #" ++ num ++ " in " ++ owner ++ "/" ++ repo ++ "\n" ++
  "Title: " ++ pr.title ++ "\n" ++
  "Author: " ++ pr.author ++ "\n" ++
  "State: " ++ pr.state ++ " " ++ (if pr.draft then "(Draft)" else "") ++ "\n" ++
  "Description: " ++ descText pr.body ++ "\n" ++
  "Files changed: " ++ toString pr.changed_files ++ " files (" ++
    toString pr.additions ++ " additions, " ++ toString pr.deletions ++ " deletions)\n" ++
  "Files: " ++ joinSep ", " (pr.files.take 10) ++ "\n" ++
  "Merge status: " ++ (if pr.merged then "Merged" else "Not merged") ++ "\n" ++
  "Comments: " ++ commentsText pr.comments

/-- Result of one `fetch_pr_info` call: the returned text and whether any
provider/network call was made. -/
structure FetchOutcome where
  text : String
  networkCalled : Bool

/-- Embeds `fetch_pr_info` with the GitHub API abstracted as a provider oracle
(`owner → repo → number → PR data or raised exception`).  Called by the
summarizer/risk agents with `track_action=None`, so no telemetry side path
is taken before validation. -/
def fetch_pr_info (pr_url : String)
    (provider : String → String → String → Except String PRData) : FetchOutcome :=
  match urlParse ghChar pr_url.data with
  | none => ⟨"Invalid PR URL format: " ++ pr_url, false⟩
  | some u =>
    match provider (String.mk u.owner) (String.mk u.repo) (String.mk u.digits) with
    | .error e => ⟨"Error fetching PR: " ++ e, true⟩
    | .ok pr =>
        ⟨prSummary (String.mk u.owner) (String.mk u.repo) (String.mk u.digits) pr, true⟩

/-- A string contains another as a contiguous substring. -/
def strContains (s pat : String) : Prop :=
  ∃ a b, s = a ++ pat ++ b

/-! ### `extract_pr_url_and_request` (`shared/input_parser.py` lines 12-33) -/

/-- Python `text.replace(pat, "", 1)` for non-empty `pat`: remove the first
occurrence of `pat`, if any. -/
def removeFirst : List Char → List Char → List Char
  | [], _ => []
  | c :: cs, pat =>
      if pat.isPrefixOf (c :: cs) then (c :: cs).drop pat.length
      else c :: removeFirst cs pat

/-- Python `str.strip()` (ASCII whitespace). -/
def pyStrip (cs : List Char) : List Char :=
  ((cs.dropWhile pyWs).reverse.dropWhile pyWs).reverse

/-- Embeds `extract_pr_url_and_request`: find the first PR URL, raise `ValueError`
(modelled as `.error`) when absent, else return the URL and the stripped
remainder (or the default when the remainder is empty). -/
def extract_pr_url_and_request (raw dflt : String) : Except String (String × String) :=
  match reSearch urlChar raw.data with
  | none =>
      .error "No GitHub pull request URL found in input. Please provide a valid GitHub PR URL."
  | some (_, m, _) =>
    let request := String.mk (pyStrip (removeFirst raw.data m))
    .ok (String.mk m, if request = "" then dflt else request)

/-! ## Theorems -/

/-- C1: every `send_action_update` call returns a string for every transport
outcome (an error description on transport failure, never an exception into
the agent loop), and the event the backend classifier produces from its
payload is of type `action` — non-terminal — for every status argument,
including `"failed"` (the payload carries `status` inside the nested `data`
object, so the top-level `status` the classifier consults is absent and
defaults to `"running"`). -/
theorem C1_send_action_update_nonterminal (aid act det st e : String) (now t : Int) :
    (receive_agent_message now (sendActionUpdatePayload aid act det st t)).event = "action" ∧
    isTerminalEvent
      (receive_agent_message now (sendActionUpdatePayload aid act det st t)).event = false ∧
    send_action_update act (.raised e) = "Error sending action update: " ++ e ∧
    send_action_update act (.response 200) = "Action update sent successfully: " ++ act :=
  ⟨rfl, rfl, rfl, rfl⟩

/-- C2: for a connection queue that delivers action events followed by one
`complete` (resp. `error`) event, the stream emits the action events in queue
order, then the terminal event, and terminates: nothing queued afterwards is
ever emitted. -/
theorem C2_sse_terminal_semantics (acts : List EventMsg) (d : JVal) (rest : List StreamItem)
    (hA : ∀ m ∈ acts, m.event = "action") :
    event_stream_relay (acts.map StreamItem.arrival ++ StreamItem.arrival ⟨"complete", d⟩ :: rest)
      = acts ++ [⟨"complete", d⟩] ∧
    event_stream_relay (acts.map StreamItem.arrival ++ StreamItem.arrival ⟨"error", d⟩ :: rest)
      = acts ++ [⟨"error", d⟩] := by
  induction acts with
  | nil =>
    constructor <;> simp [event_stream_relay, isTerminalEvent]
  | cons m ms ih =>
    have hm : m.event = "action" := hA m (by simp)
    obtain ⟨ih1, ih2⟩ := ih fun x hx => hA x (by simp [hx])
    have hterm : isTerminalEvent m.event = false := by rw [hm]; rfl
    constructor <;> simp [event_stream_relay, hterm, ih1, ih2]

/-- C2 witness: one action event then a `complete`, with a late event queued
after the terminal one that is not delivered. -/
theorem C2_sse_terminal_semantics_witness :
    event_stream_relay
      [StreamItem.arrival ⟨"action", .jstr "a1"⟩, StreamItem.arrival ⟨"complete", .jstr "done"⟩,
       StreamItem.arrival ⟨"action", .jstr "late"⟩]
      = [⟨"action", .jstr "a1"⟩, ⟨"complete", .jstr "done"⟩] := by
  have h := C2_sse_terminal_semantics [⟨"action", JVal.jstr "a1"⟩] (JVal.jstr "done")
    [StreamItem.arrival ⟨"action", JVal.jstr "late"⟩]
    (by intro x hx; simp at hx; rw [hx])
  simpa using h.1

/-- C8: a run of timeouts makes the stream emit one synthetic keepalive per
timeout — each of (non-terminal) type `action` — and the stream then keeps
relaying whatever follows: a timeout alone never terminates the stream. -/
theorem C8_keepalive_idempotence (ts : List Int) (rest : List StreamItem) :
    event_stream_relay (ts.map StreamItem.timeout ++ rest)
      = ts.map keepaliveEvent ++ event_stream_relay rest ∧
    (∀ t : Int, (keepaliveEvent t).event = "action" ∧
      isTerminalEvent (keepaliveEvent t).event = false) := by
  refine ⟨?_, fun t => ⟨rfl, rfl⟩⟩
  induction ts with
  | nil => simp
  | cons t ts ih => simpa [event_stream_relay] using ih

/-- C5: with no API credential configured, or with no voice identity available
either from the argument or from configuration, the voice tool returns a
descriptive failure string (no exception escapes the tool boundary) and the
HTTP call to the provider is never performed. -/
theorem C5_voice_preconditions (env : VoiceEnv) (vid : Option String) (t : Nat)
    (http : HttpOutcome) :
    (pyStrTruthy env.elevenlabs_api_key = none →
      generate_voice_tool env vid t http
        = "Voice generation failed: ELEVENLABS_API_KEY not configured." ∧
      (generate_voice_over env vid t http).httpCalled = false) ∧
    (pyStrTruthy (pyOrStr vid env.elevenlabs_voice_id) = none →
      (generate_voice_tool env vid t http
          = "Voice generation failed: ELEVENLABS_API_KEY not configured." ∨
       generate_voice_tool env vid t http
          = "Voice generation failed: Voice ID not provided. Set ELEVENLABS_VOICE_ID or pass voice_id explicitly.") ∧
      (generate_voice_over env vid t http).httpCalled = false) := by
  constructor
  · intro h
    simp [generate_voice_tool, generate_voice_over, h]
  · intro h
    cases hk : pyStrTruthy env.elevenlabs_api_key with
    | none => simp [generate_voice_tool, generate_voice_over, hk]
    | some k => simp [generate_voice_tool, generate_voice_over, hk, h]

/-- C5 witness: missing credential on a concrete environment. -/
theorem C5_voice_preconditions_witness :
    generate_voice_tool ⟨none, none, none⟩ none 0 (.ok "AUDIO")
      = "Voice generation failed: ELEVENLABS_API_KEY not configured." ∧
    (generate_voice_over ⟨none, none, none⟩ none 0 (.ok "AUDIO")).httpCalled = false :=
  (C5_voice_preconditions ⟨none, none, none⟩ none 0 (.ok "AUDIO")).1 rfl

/-- C6 counterexample: on a concrete successful synthesis the reference the
voice tool returns is exactly the raw filesystem path the audio was written
to (`voice_over_outputs/voice_v1_111.mp3`), which is neither a URL nor a
server-relative reference — refuting the claimed normalization. -/
theorem C6_raw_path_counterexample :
    (generate_voice_over ⟨some "test-key", some "v1", none⟩ none 111 (.ok "AUDIO")).result
      = .ok "voice_over_outputs/voice_v1_111.mp3" ∧
    generate_voice_tool ⟨some "test-key", some "v1", none⟩ none 111 (.ok "AUDIO")
      = "Voice-over generated successfully. File saved at: voice_over_outputs/voice_v1_111.mp3" ∧
    servableRef "voice_over_outputs/voice_v1_111.mp3" = false :=
  ⟨rfl, rfl, rfl⟩

/-- C6 amended: for every successful voice synthesis, the reference returned
by the voice tool is exactly the raw filesystem path
`<output dir>/voice_<voice>_<timestamp>.mp3` the audio file was written to
(no normalization to a URL or server-relative form takes place). -/
theorem C6_voice_reference_amended (env : VoiceEnv) (vid : Option String) (t : Nat)
    (audio key voice : String)
    (h1 : pyStrTruthy env.elevenlabs_api_key = some key)
    (h2 : pyStrTruthy (pyOrStr vid env.elevenlabs_voice_id) = some voice) :
    (generate_voice_over env vid t (.ok audio)).result = .ok (voiceOutputPath env voice t) ∧
    generate_voice_tool env vid t (.ok audio)
      = "Voice-over generated successfully. File saved at: " ++ voiceOutputPath env voice t := by
  simp [generate_voice_over, generate_voice_tool, h1, h2]

/-- C6 amended witness: a concrete successful synthesis. -/
theorem C6_voice_reference_amended_witness :
    (generate_voice_over ⟨some "k", some "v1", some "out"⟩ none 7 (.ok "A")).result
      = .ok (voiceOutputPath ⟨some "k", some "v1", some "out"⟩ "v1" 7) ∧
    generate_voice_tool ⟨some "k", some "v1", some "out"⟩ none 7 (.ok "A")
      = "Voice-over generated successfully. File saved at: "
          ++ voiceOutputPath ⟨some "k", some "v1", some "out"⟩ "v1" 7 :=
  C6_voice_reference_amended ⟨some "k", some "v1", some "out"⟩ none 7 "A" "k" "v1" rfl rfl

/-- C7 counterexample: on an empty reply list the summarizer, risk and voice
loops all index `resp.msgs[0]` unguarded and crash with `IndexError`,
refuting the claim that every loop skips and continues. -/
theorem C7_empty_reply_counterexample :
    summarizer_loop_iter ⟨[]⟩ = .crashed "IndexError" ∧
    risk_loop_iter ⟨[]⟩ = .crashed "IndexError" ∧
    voice_loop_iter ⟨[]⟩ = .crashed "IndexError" :=
  ⟨rfl, rfl, rfl⟩

/-- C7 amended: only the orchestrator loop tolerates an empty reply list
(skipping the iteration and continuing); the summarizer, risk and voice loops
raise `IndexError` on an empty reply list. -/
theorem C7_empty_reply_amended (resp : AgentStepResponse) (h : resp.msgs = []) :
    orchestrator_loop_iter resp = .continued ∧
    summarizer_loop_iter resp = .crashed "IndexError" ∧
    risk_loop_iter resp = .crashed "IndexError" ∧
    voice_loop_iter resp = .crashed "IndexError" := by
  simp [orchestrator_loop_iter, summarizer_loop_iter, risk_loop_iter, voice_loop_iter, h]

/-- C7 amended witness: the concrete empty response. -/
theorem C7_empty_reply_amended_witness :
    orchestrator_loop_iter ⟨[]⟩ = .continued ∧
    summarizer_loop_iter ⟨[]⟩ = .crashed "IndexError" ∧
    risk_loop_iter ⟨[]⟩ = .crashed "IndexError" ∧
    voice_loop_iter ⟨[]⟩ = .crashed "IndexError" :=
  C7_empty_reply_amended ⟨[]⟩ rfl

theorem lookup_setCursor_self (l : List (String × Nat)) (k : String) (n : Nat) :
    (setCursor l k n).lookup k = some n := by
  induction l with
  | nil => simp [setCursor, List.lookup]
  | cons kv rest ih =>
    obtain ⟨k2, v⟩ := kv
    by_cases h : k2 = k
    · subst h
      simp [setCursor, List.lookup]
    · have hb : (k == k2) = false := by
        simp [Ne.symm h]
      simp [setCursor, h, List.lookup, hb, ih]

/-- C9 (spec-modelled broker): a message with empty mentions is never returned
by any `wait_for_mentions` call; a message mentioning agent `a` is returned to
`a` by the next poll, exactly once, inside a sublist of the log (hence in
publish order), not again by the following poll, and never to an agent `c`
that is not mentioned. -/
theorem C9_mention_delivery (b : Broker) (m : BMessage) (a c : String)
    (hcur : cursorOf b a ≤ b.log.length) (hmem : a ∈ m.mentions)
    (hnot : c ∉ m.mentions) (hfresh : m ∉ b.log) :
    (∀ (b2 : Broker) (x : BMessage) (agent : String),
        x.mentions = [] → x ∉ (wait_for_mentions b2 agent).1) ∧
    m ∈ (wait_for_mentions (send_message b m) a).1 ∧
    ((wait_for_mentions (send_message b m) a).1).count m = 1 ∧
    ((wait_for_mentions (send_message b m) a).1).Sublist (send_message b m).log ∧
    m ∉ (wait_for_mentions ((wait_for_mentions (send_message b m) a).2) a).1 ∧
    m ∉ (wait_for_mentions (send_message b m) c).1 := by
  have hdrop : ((send_message b m).log).drop (cursorOf (send_message b m) a)
      = b.log.drop (cursorOf b a) ++ [m] := by
    simp only [send_message, cursorOf]
    exact List.drop_append_of_le_length hcur
  have hPm : m.mentions.contains a = true := by
    simpa using hmem
  refine ⟨?_, ?_, ?_, ?_, ?_, ?_⟩
  · intro b2 x agent hx hmem2
    rw [wait_for_mentions] at hmem2
    have := (List.mem_filter.mp hmem2).2
    rw [hx] at this
    simp at this
  · rw [wait_for_mentions, hdrop, List.filter_append]
    simp [hmem]
  · rw [wait_for_mentions, hdrop, List.filter_append, List.count_append]
    have h1 : (List.filter (fun x => x.mentions.contains a) (b.log.drop (cursorOf b a))).count m
        = 0 := by
      refine List.count_eq_zero.mpr fun hmm => hfresh ?_
      exact (List.drop_sublist _ _).mem (List.mem_of_mem_filter hmm)
    rw [h1]
    simp [hmem]
  · exact ((List.filter_sublist _).trans (List.drop_sublist _ _))
  · have hc2 : cursorOf (wait_for_mentions (send_message b m) a).2 a
        = ((send_message b m).log).length := by
      simp [wait_for_mentions, cursorOf, lookup_setCursor_self]
    have hwait : (wait_for_mentions ((wait_for_mentions (send_message b m) a).2) a).1
        = List.filter (fun x => x.mentions.contains a)
            ((((wait_for_mentions (send_message b m) a).2).log).drop
              (cursorOf ((wait_for_mentions (send_message b m) a).2) a)) := rfl
    have hlog : ((wait_for_mentions (send_message b m) a).2).log = (send_message b m).log := rfl
    rw [hwait, hc2, hlog, List.drop_length]
    simp
  · intro hmm
    rw [wait_for_mentions] at hmm
    have := (List.mem_filter.mp hmm).2
    exact hnot (by simpa using this)

/-- C9 witness: a fresh session where the orchestrator mentions only the
summarizer. -/
theorem C9_mention_delivery_witness :
    let b0 : Broker := ⟨[], []⟩
    let m0 : BMessage := ⟨"orchestrator-agent", ["summarizer-agent"], "analyze PR"⟩
    m0 ∈ (wait_for_mentions (send_message b0 m0) "summarizer-agent").1 ∧
    ((wait_for_mentions (send_message b0 m0) "summarizer-agent").1).count m0 = 1 ∧
    m0 ∉ (wait_for_mentions
      ((wait_for_mentions (send_message b0 m0) "summarizer-agent").2) "summarizer-agent").1 ∧
    m0 ∉ (wait_for_mentions (send_message b0 m0) "risk-agent").1 := by
  have h := C9_mention_delivery ⟨[], []⟩ ⟨"orchestrator-agent", ["summarizer-agent"], "analyze PR"⟩
    "summarizer-agent" "risk-agent" (by simp [cursorOf]) (by simp) (by simp) (by simp)
  exact ⟨h.2.1, h.2.2.1, h.2.2.2.2.1, h.2.2.2.2.2⟩

theorem lookupQ_setQ_self (l : List (String × List String)) (k : String) (q : List String) :
    lookupQ (setQ l k q) k = some q := by
  induction l with
  | nil => simp [setQ, lookupQ]
  | cons kv rest ih =>
    obtain ⟨k2, v⟩ := kv
    by_cases h : k2 = k
    · subst h
      simp [setQ, lookupQ]
    · simp [setQ, h, lookupQ, ih]

theorem qOf_add (s : MessageStoreState) (sid m : String) :
    qOf (add_user_message s sid m) sid = qOf s sid ++ [m] := by
  simp [add_user_message, qOf, lookupQ_setQ_self]

theorem runPolls_eq_specRun (sid : String) (ops : List QOp) :
    ∀ s : MessageStoreState,
      runPolls sid ops s = (specRun ops (qOf s sid)).map endpointResp := by
  induction ops with
  | nil => intro s; rfl
  | cons op rest ih =>
    intro s
    cases op with
    | enq m =>
      show runPolls sid rest (add_user_message s sid m)
          = (specRun rest (qOf s sid ++ [m])).map endpointResp
      rw [ih, qOf_add]
    | poll =>
      cases hq : lookupQ s.user_message_queues sid with
      | none =>
        have hq0 : qOf s sid = [] := by simp [qOf, hq]
        have hget : get_user_message s sid = (none, s) := by
          simp [get_user_message, hq]
        show (get_user_message_endpoint s sid).1 ::
            runPolls sid rest (get_user_message_endpoint s sid).2
            = (specRun (QOp.poll :: rest) (qOf s sid)).map endpointResp
        rw [hq0]
        simp [get_user_message_endpoint, endpointResp, hget, specRun, ih s, hq0]
      | some q =>
        cases q with
        | nil =>
          have hq0 : qOf s sid = [] := by simp [qOf, hq]
          have hget : get_user_message s sid = (none, s) := by
            simp [get_user_message, hq]
          show (get_user_message_endpoint s sid).1 ::
              runPolls sid rest (get_user_message_endpoint s sid).2
              = (specRun (QOp.poll :: rest) (qOf s sid)).map endpointResp
          rw [hq0]
          simp [get_user_message_endpoint, endpointResp, hget, specRun, ih s, hq0]
        | cons mh qt =>
          have hq0 : qOf s sid = mh :: qt := by simp [qOf, hq]
          have hget : get_user_message s sid
              = (some mh, ⟨setQ s.user_message_queues sid qt⟩) := by
            simp [get_user_message, hq]
          have hq2 : qOf (⟨setQ s.user_message_queues sid qt⟩ : MessageStoreState) sid = qt := by
            simp [qOf, lookupQ_setQ_self]
          show (get_user_message_endpoint s sid).1 ::
              runPolls sid rest (get_user_message_endpoint s sid).2
              = (specRun (QOp.poll :: rest) (qOf s sid)).map endpointResp
          rw [hq0]
          by_cases hmh : mh = "" <;>
            simp [get_user_message_endpoint, endpointResp, hget, specRun, ih, hq2, hmh]

theorem specRun_fifo (ops : List QOp) :
    ∀ q : List String, fifoOk ops q.length = true →
      specRun ops q
        = ((q ++ enqProj ops).take (pollCount ops)).map some
          ++ List.replicate (pollCount ops - (q.length + (enqProj ops).length)) none := by
  induction ops with
  | nil => intro q h; simp [specRun, enqProj, pollCount]
  | cons op rest ih =>
    intro q h
    cases op with
    | enq m =>
      have h2 : fifoOk rest (q ++ [m]).length = true := by
        simpa [fifoOk, List.length_append] using h
      have step : specRun (QOp.enq m :: rest) q = specRun rest (q ++ [m]) := rfl
      rw [step, ih (q ++ [m]) h2]
      have hlen : (q ++ [m]).length + (enqProj rest).length
          = q.length + (enqProj (QOp.enq m :: rest)).length := by
        simp [enqProj]
        omega
      rw [hlen]
      have hlist : (q ++ [m]) ++ enqProj rest = q ++ enqProj (QOp.enq m :: rest) := by
        simp [enqProj]
      rw [hlist]
      rfl
    | poll =>
      cases q with
      | nil =>
        have h2 : ((enqProj rest).isEmpty && fifoOk rest 0) = true := by
          simpa [fifoOk] using h
        obtain ⟨he, hf⟩ := Bool.and_eq_true_iff.mp h2
        have hproj : enqProj rest = [] := by
          cases henq : enqProj rest with
          | nil => rfl
          | cons x xs => rw [henq] at he; simp [List.isEmpty] at he
        have step : specRun (QOp.poll :: rest) [] = none :: specRun rest [] := rfl
        rw [step, ih [] hf, hproj]
        simp [pollCount, enqProj, hproj, List.replicate_succ]
      | cons mh qt =>
        have h2 : fifoOk rest qt.length = true := by
          simpa [fifoOk] using h
        have step : specRun (QOp.poll :: rest) (mh :: qt) = some mh :: specRun rest qt := rfl
        rw [step, ih qt h2]
        have hsub : pollCount (QOp.poll :: rest) - ((mh :: qt).length + (enqProj (QOp.poll :: rest)).length)
            = pollCount rest - (qt.length + (enqProj rest).length) := by
          simp [pollCount, enqProj]
          omega
        rw [hsub]
        simp [pollCount, enqProj, List.take_succ_cons]

/-- C3 counterexample: the endpoint tests Python truthiness (`if message:`,
`backend_server.py` line 543), so enqueuing the empty string as each user
message makes every poll answer the `{message: null, has_message: false}`
sentinel — refuting the claim's `(mi, has_message = true)` responses at the
concrete instance `m1 = m2 = m3 = ""` of its FIFO-consistent interleavings
(the empty messages are still consumed from the queue). -/
theorem C3_empty_message_counterexample :
    runPolls "s1"
      [QOp.enq "", QOp.poll, QOp.enq "", QOp.enq "", QOp.poll, QOp.poll, QOp.poll]
      ⟨[]⟩
      = [(none, false), (none, false), (none, false), (none, false)] := rfl

/-- C3 amended: from an empty session queue, for every FIFO-consistent
interleaving of the enqueues of **non-empty** messages `m1, m2, m3` with four
polls of the session-message endpoint, the polls return `m1, m2, m3` in
order, each with `has_message = true`, and the final poll on the drained
queue returns the `{message: null, has_message: false}` sentinel rather than
an error; an empty-string message is instead consumed but reported as the
sentinel, because the endpoint tests Python truthiness. -/
theorem C3_fifo_user_queue (sid m1 m2 m3 : String) (ops : List QOp) (s : MessageStoreState)
    (h0 : qOf s sid = []) (h1 : enqProj ops = [m1, m2, m3]) (h2 : pollCount ops = 4)
    (h3 : fifoOk ops 0 = true)
    (hm1 : m1 ≠ "") (hm2 : m2 ≠ "") (hm3 : m3 ≠ "") :
    runPolls sid ops s
      = [(some m1, true), (some m2, true), (some m3, true), (none, false)] := by
  rw [runPolls_eq_specRun sid ops s, h0]
  rw [specRun_fifo ops [] (by simpa using h3)]
  rw [h1, h2]
  simp [endpointResp, hm1, hm2, hm3]

/-- C3 witness: a concrete FIFO-consistent interleaving of enqueues and
polls of non-empty messages. -/
theorem C3_fifo_user_queue_witness :
    runPolls "s1"
      [QOp.enq "m1", QOp.poll, QOp.enq "m2", QOp.enq "m3", QOp.poll, QOp.poll, QOp.poll]
      ⟨[]⟩
      = [(some "m1", true), (some "m2", true), (some "m3", true), (none, false)] :=
  C3_fifo_user_queue "s1" "m1" "m2" "m3" _ ⟨[]⟩ rfl rfl rfl rfl
    (by decide) (by decide) (by decide)

/-! ### Parser lemmas for the two PR-URL regexes -/

theorem litDrop_eq_some {lit : List Char} :
    ∀ {cs rest : List Char}, litDrop lit cs = some rest → cs = lit ++ rest := by
  induction lit with
  | nil =>
    intro cs rest h
    simpa [litDrop] using h
  | cons l ls ih =>
    intro cs rest h
    cases cs with
    | nil => simp [litDrop] at h
    | cons c cs2 =>
      rw [litDrop] at h
      by_cases hc : c = l
      · rw [if_pos hc] at h
        subst hc
        simp [ih h]
      · rw [if_neg hc] at h
        cases h

theorem litDrop_self_append (lit rest : List Char) : litDrop lit (lit ++ rest) = some rest := by
  induction lit with
  | nil => rfl
  | cons l ls ih => simp [litDrop, ih]

theorem expectSlash_eq_some {cs rest : List Char} (h : expectSlash cs = some rest) :
    cs = '/' :: rest := by
  cases cs with
  | nil => simp [expectSlash] at h
  | cons c cs2 =>
    rw [expectSlash] at h
    by_cases hc : c = '/'
    · rw [if_pos hc] at h
      injection h with h2
      rw [hc, h2]
    · rw [if_neg hc] at h
      cases h

theorem takeWhile_app (p : Char → Bool) :
    ∀ (s rest : List Char), (∀ c ∈ s, p c = true) →
      (s ++ rest).takeWhile p = s ++ rest.takeWhile p := by
  intro s
  induction s with
  | nil => intro rest _; rfl
  | cons a s ih =>
    intro rest h
    have ha : p a = true := h a (by simp)
    simp [List.takeWhile_cons, ha, ih rest fun c hc => h c (by simp [hc])]

theorem dropWhile_app (p : Char → Bool) :
    ∀ (s rest : List Char), (∀ c ∈ s, p c = true) →
      (s ++ rest).dropWhile p = rest.dropWhile p := by
  intro s
  induction s with
  | nil => intro rest _; rfl
  | cons a s ih =>
    intro rest h
    have ha : p a = true := h a (by simp)
    simp [List.dropWhile_cons, ha, ih rest fun c hc => h c (by simp [hc])]

theorem mem_takeWhile_p (p : Char → Bool) :
    ∀ (l : List Char) (c : Char), c ∈ l.takeWhile p → p c = true := by
  intro l
  induction l with
  | nil => intro c h; simp [List.takeWhile] at h
  | cons a l ih =>
    intro c h
    rw [List.takeWhile_cons] at h
    cases ha : p a with
    | false => rw [ha] at h; simp at h
    | true =>
      rw [ha] at h
      simp only [if_true, List.mem_cons] at h
      cases h with
      | inl h2 => rw [h2]; exact ha
      | inr h2 => exact ih c h2

theorem seg_eq_some {p : Char → Bool} {cs s rest : List Char} (h : seg p cs = some (s, rest)) :
    cs = s ++ rest ∧ s ≠ [] ∧ (∀ c ∈ s, p c = true) := by
  rw [seg] at h
  by_cases h0 : cs.takeWhile p = []
  · rw [if_pos h0] at h
    cases h
  · rw [if_neg h0] at h
    simp only [Option.some.injEq, Prod.mk.injEq] at h
    obtain ⟨hs, hr⟩ := h
    subst hs
    subst hr
    exact ⟨by simp [List.takeWhile_append_dropWhile], h0,
      fun c hc => mem_takeWhile_p p cs c hc⟩

theorem seg_of_app {p : Char → Bool} {s : List Char} (hne : s ≠ [])
    (hall : ∀ c ∈ s, p c = true) {c : Char} (hc : p c = false) (rest : List Char) :
    seg p (s ++ c :: rest) = some (s, c :: rest) := by
  have ht : (s ++ c :: rest).takeWhile p = s := by
    rw [takeWhile_app p s (c :: rest) hall, List.takeWhile_cons, hc]
    simp
  have hd : (s ++ c :: rest).dropWhile p = c :: rest := by
    rw [dropWhile_app p s (c :: rest) hall, List.dropWhile_cons, hc]
    simp
  rw [seg, ht, hd, if_neg hne]

theorem seg_of_app_all {p : Char → Bool} {s : List Char} (hne : s ≠ [])
    (hall : ∀ c ∈ s, p c = true) (rest : List Char) :
    seg p (s ++ rest) = some (s ++ rest.takeWhile p, rest.dropWhile p) := by
  rw [seg, takeWhile_app p s rest hall, dropWhile_app p s rest hall,
    if_neg (by simp [hne])]

theorem urlParse_eq_some {p : Char → Bool} {cs : List Char} {u : UrlParts}
    (h : urlParse p cs = some u) :
    cs = ghLit ++ u.owner ++ '/' :: (u.repo ++ pullLit ++ u.digits ++ u.rest) ∧
    u.owner ≠ [] ∧ u.repo ≠ [] ∧ u.digits ≠ [] ∧
    (∀ c ∈ u.owner, p c = true) ∧ (∀ c ∈ u.repo, p c = true) ∧
    (∀ c ∈ u.digits, isPyDigit c = true) := by
  rw [urlParse] at h
  simp only [Option.bind_eq_some, Option.map_eq_some'] at h
  obtain ⟨r1, h1, s1, h2, r3, h3, s2, h4, r5, h5, s3, h6, hu⟩ := h
  obtain ⟨e1, hne1, hall1⟩ := seg_eq_some (by rw [← h2])
  obtain ⟨e2, hne2, hall2⟩ := seg_eq_some (by rw [← h4])
  obtain ⟨e3, hne3, hall3⟩ := seg_eq_some (by rw [← h6])
  have hcs := litDrop_eq_some h1
  have hsl := expectSlash_eq_some h3
  have hpl := litDrop_eq_some h5
  subst hu
  refine ⟨?_, hne1, hne2, hne3, hall1, hall2, hall3⟩
  rw [hcs, e1, hsl, e2, hpl, e3]
  simp [List.append_assoc]

theorem urlParse_of_shape {p : Char → Bool} (hslash : p '/' = false)
    {o r d : List Char} (ho : o ≠ []) (hr : r ≠ []) (hd : d ≠ [])
    (hop : ∀ c ∈ o, p c = true) (hrp : ∀ c ∈ r, p c = true)
    (hdd : ∀ c ∈ d, isPyDigit c = true) (tail : List Char) :
    (urlParse p ((ghLit ++ o ++ '/' :: (r ++ pullLit ++ d)) ++ tail)).isSome = true := by
  have hshape : (ghLit ++ o ++ '/' :: (r ++ pullLit ++ d)) ++ tail
      = ghLit ++ (o ++ '/' :: (r ++ ('/' :: ("pull/".data ++ (d ++ tail))))) := by
    have hpull : pullLit = '/' :: "pull/".data := rfl
    simp [hpull, List.append_assoc]
  rw [urlParse, hshape, litDrop_self_append, Option.some_bind,
    seg_of_app ho hop hslash, Option.some_bind]
  have hes : expectSlash ('/' :: (r ++ ('/' :: ("pull/".data ++ (d ++ tail)))))
      = some (r ++ ('/' :: ("pull/".data ++ (d ++ tail)))) := by
    rw [expectSlash, if_pos rfl]
  rw [hes, Option.some_bind, seg_of_app hr hrp hslash, Option.some_bind]
  have hpl : litDrop pullLit ('/' :: ("pull/".data ++ (d ++ tail))) = some (d ++ tail) := by
    have : ('/' : Char) :: ("pull/".data ++ (d ++ tail)) = pullLit ++ (d ++ tail) := rfl
    rw [this, litDrop_self_append]
  rw [hpl, Option.some_bind, seg_of_app_all hd hdd]
  rfl

theorem reSearch_cons_none {p : Char → Bool} {c : Char} {cs : List Char}
    (h : reSearch p (c :: cs) = none) :
    urlParse p (c :: cs) = none ∧ reSearch p cs = none := by
  cases hu : urlParse p (c :: cs) with
  | some u => simp [reSearch, hu] at h
  | none =>
    cases hr : reSearch p cs with
    | some t =>
      obtain ⟨pre, m, rest⟩ := t
      simp [reSearch, hu, hr] at h
    | none => exact ⟨rfl, rfl⟩

theorem UrlShape.ne_nil {p : Char → Bool} {mid : List Char} (h : UrlShape p mid) :
    mid ≠ [] := by
  obtain ⟨o, r, d, _, _, _, _, _, _, hmid⟩ := h
  rw [hmid]
  simp

theorem reSearch_none_no_shape {p : Char → Bool} (hslash : p '/' = false) :
    ∀ cs : List Char, reSearch p cs = none →
      ∀ pre mid post : List Char, cs = pre ++ mid ++ post → UrlShape p mid → False := by
  intro cs
  induction cs with
  | nil =>
    intro _ pre mid post heq hsh
    have hmid : mid = [] := by
      have h2 := heq.symm
      simp only [List.append_eq_nil] at h2
      exact h2.1.2
    exact UrlShape.ne_nil hsh hmid
  | cons c cs ih =>
    intro h pre mid post heq hsh
    obtain ⟨hu, hr⟩ := reSearch_cons_none h
    cases pre with
    | nil =>
      obtain ⟨o, r2, d, ho, hrne, hd, hop, hrp, hdd, hmid⟩ := hsh
      have hccs : c :: cs = (ghLit ++ o ++ '/' :: (r2 ++ pullLit ++ d)) ++ post := by
        rw [← hmid]
        simpa using heq
      have hiso : (urlParse p (c :: cs)).isSome = true := by
        rw [hccs]
        exact urlParse_of_shape hslash ho hrne hd hop hrp hdd post
      rw [hu] at hiso
      simp at hiso
    | cons c2 pre2 =>
      have hc : cs = pre2 ++ mid ++ post := by
        have h2 := heq
        simp only [List.cons_append] at h2
        exact (List.cons.injEq _ _ _ _).mp h2 |>.2
      exact ih hr pre2 mid post hc hsh

theorem reSearch_some_sound {p : Char → Bool} (hslash : p '/' = false) :
    ∀ cs pre m rest : List Char, reSearch p cs = some (pre, m, rest) →
      cs = pre ++ m ++ rest ∧ UrlShape p m ∧
      (∀ pre2 mid post2 : List Char, cs = pre2 ++ mid ++ post2 → UrlShape p mid →
        pre.length ≤ pre2.length) := by
  intro cs
  induction cs with
  | nil => intro pre m rest h; simp [reSearch] at h
  | cons c cs ih =>
    intro pre m rest h
    cases hu : urlParse p (c :: cs) with
    | some u =>
      have heq : [] = pre ∧ u.matched = m ∧ u.rest = rest := by
        simpa [reSearch, hu] using h
      obtain ⟨h1, h2, h3⟩ := heq
      subst h1; subst h2; subst h3
      obtain ⟨hcs, ho, hrne, hd, hop, hrp, hdd⟩ := urlParse_eq_some hu
      refine ⟨?_, ?_, ?_⟩
      · rw [hcs]
        simp [UrlParts.matched, List.append_assoc]
      · exact ⟨u.owner, u.repo, u.digits, ho, hrne, hd, hop, hrp, hdd, rfl⟩
      · intro pre2 mid post2 _ _
        exact Nat.zero_le _
    | none =>
      cases hr : reSearch p cs with
      | none => simp [reSearch, hu, hr] at h
      | some t =>
        obtain ⟨pre0, m0, rest0⟩ := t
        have heq : c :: pre0 = pre ∧ m0 = m ∧ rest0 = rest := by
          simpa [reSearch, hu, hr] using h
        obtain ⟨h1, h2, h3⟩ := heq
        subst h1; subst h2; subst h3
        obtain ⟨hcs0, hsh0, hmin0⟩ := ih pre0 m0 rest0 hr
        refine ⟨by simp [hcs0], hsh0, ?_⟩
        intro pre2 mid post2 heq2 hsh2
        cases pre2 with
        | nil =>
          exfalso
          obtain ⟨o, r2, d, ho, hrne, hd, hop, hrp, hdd, hmid⟩ := hsh2
          have hccs : c :: cs = (ghLit ++ o ++ '/' :: (r2 ++ pullLit ++ d)) ++ post2 := by
            rw [← hmid]
            simpa using heq2
          have hiso : (urlParse p (c :: cs)).isSome = true := by
            rw [hccs]
            exact urlParse_of_shape hslash ho hrne hd hop hrp hdd post2
          rw [hu] at hiso
          simp at hiso
        | cons c2 pre2b =>
          have hc : cs = pre2b ++ mid ++ post2 := by
            have h2 := heq2
            simp only [List.cons_append] at h2
            exact (List.cons.injEq _ _ _ _).mp h2 |>.2
          have := hmin0 pre2b mid post2 hc hsh2
          simpa [List.length_cons] using Nat.succ_le_succ this

theorem isPrefixOf_self_append (l t : List Char) : l.isPrefixOf (l ++ t) = true := by
  induction l with
  | nil => simp [List.isPrefixOf]
  | cons a l ih => simp [List.isPrefixOf, ih]

theorem drop_self_append (l t : List Char) : (l ++ t).drop l.length = t := by
  induction l with
  | nil => rfl
  | cons a l ih => simp [ih]

theorem removeFirst_of_min {m : List Char} (hm : m ≠ []) :
    ∀ pre rest : List Char,
      (∀ pre2 post2 : List Char, pre ++ m ++ rest = pre2 ++ m ++ post2 →
        pre.length ≤ pre2.length) →
      removeFirst (pre ++ m ++ rest) m = pre ++ rest := by
  intro pre
  induction pre with
  | nil =>
    intro rest _
    cases m with
    | nil => exact absurd rfl hm
    | cons mc mrest =>
      show removeFirst ((mc :: mrest) ++ rest) (mc :: mrest) = rest
      rw [List.cons_append, removeFirst,
        if_pos (by rw [← List.cons_append]; exact isPrefixOf_self_append (mc :: mrest) rest),
        ← List.cons_append]
      exact drop_self_append (mc :: mrest) rest
  | cons a pre ih =>
    intro rest hmin
    have hstep : (a :: pre) ++ m ++ rest = a :: (pre ++ m ++ rest) := by simp
    have hnp : m.isPrefixOf (a :: (pre ++ m ++ rest)) = false := by
      cases hp : m.isPrefixOf (a :: (pre ++ m ++ rest)) with
      | false => rfl
      | true =>
        exfalso
        obtain ⟨t, ht⟩ := List.isPrefixOf_iff_prefix.mp hp
        have habs := hmin [] t (by rw [hstep, ← ht]; simp)
        simp at habs
    rw [hstep, removeFirst, if_neg (by rw [hnp]; exact Bool.false_ne_true)]
    have hmin2 : ∀ pre2 post2 : List Char, pre ++ m ++ rest = pre2 ++ m ++ post2 →
        pre.length ≤ pre2.length := by
      intro pre2 post2 he
      have := hmin (a :: pre2) post2 (by simp [he])
      simpa using this
    rw [ih rest hmin2]
    simp

/-- C4: `fetch_pr_info` validates the URL against the prefix regex before the
provider is consulted — a non-matching input (equivalently, by the
characterization in the first conjunct, an input with no PR-URL-shaped
prefix) yields the invalid-format diagnostic with no network call; a matching
input yields, on provider success, a snapshot containing the PR number, the
author, and the changed-file count, and, on provider failure, the descriptive
error string rather than a raised exception. -/
theorem C4_fetch_pr_info_validation (pr_url : String)
    (provider : String → String → String → Except String PRData) :
    ((urlParse ghChar pr_url.data = none)
        ↔ ¬ ∃ mid post, pr_url.data = mid ++ post ∧ UrlShape ghChar mid) ∧
    (urlParse ghChar pr_url.data = none →
      (fetch_pr_info pr_url provider).text = "Invalid PR URL format: " ++ pr_url ∧
      (fetch_pr_info pr_url provider).networkCalled = false) ∧
    (∀ u pr, urlParse ghChar pr_url.data = some u →
      provider (String.mk u.owner) (String.mk u.repo) (String.mk u.digits) = .ok pr →
      (fetch_pr_info pr_url provider).networkCalled = true ∧
      strContains (fetch_pr_info pr_url provider).text (String.mk u.digits) ∧
      strContains (fetch_pr_info pr_url provider).text pr.author ∧
      strContains (fetch_pr_info pr_url provider).text (toString pr.changed_files)) ∧
    (∀ u e, urlParse ghChar pr_url.data = some u →
      provider (String.mk u.owner) (String.mk u.repo) (String.mk u.digits) = .error e →
      (fetch_pr_info pr_url provider).text = "Error fetching PR: " ++ e ∧
      (fetch_pr_info pr_url provider).networkCalled = true) := by
  have hslash : ghChar '/' = false := rfl
  refine ⟨?_, ?_, ?_, ?_⟩
  · constructor
    · intro hnone hex
      obtain ⟨mid, post, heq, hsh⟩ := hex
      obtain ⟨o, r2, d, ho, hrne, hd, hop, hrp, hdd, hmid⟩ := hsh
      have hiso : (urlParse ghChar pr_url.data).isSome = true := by
        rw [heq, hmid]
        exact urlParse_of_shape hslash ho hrne hd hop hrp hdd post
      rw [hnone] at hiso
      simp at hiso
    · intro hno
      cases hu : urlParse ghChar pr_url.data with
      | none => rfl
      | some u =>
        exfalso
        obtain ⟨hcs, ho, hrne, hd, hop, hrp, hdd⟩ := urlParse_eq_some hu
        refine hno ⟨u.matched, u.rest, ?_, ?_⟩
        · rw [hcs]
          simp [UrlParts.matched, List.append_assoc]
        · exact ⟨u.owner, u.repo, u.digits, ho, hrne, hd, hop, hrp, hdd, rfl⟩
  · intro h
    constructor <;> simp [fetch_pr_info, h]
  · intro u pr hu hok
    have htext : (fetch_pr_info pr_url provider).text
        = prSummary (String.mk u.owner) (String.mk u.repo) (String.mk u.digits) pr := by
      simp [fetch_pr_info, hu, hok]
    refine ⟨by simp [fetch_pr_info, hu, hok], ?_, ?_, ?_⟩
    · refine ⟨"PR #", " in " ++ String.mk u.owner ++ "/" ++ String.mk u.repo ++
        "\nTitle: " ++ pr.title ++ "\nAuthor: " ++ pr.author ++
        "\nState: " ++ pr.state ++ " " ++ (if pr.draft then "(Draft)" else "") ++
        "\nDescription: " ++ descText pr.body ++
        "\nFiles changed: " ++ toString pr.changed_files ++ " files (" ++
          toString pr.additions ++ " additions, " ++ toString pr.deletions ++
        " deletions)\nFiles: " ++ joinSep ", " (pr.files.take 10) ++
        "\nMerge status: " ++ (if pr.merged then "Merged" else "Not merged") ++
        "\nComments: " ++ commentsText pr.comments, ?_⟩
      rw [htext]
      simp [prSummary, String.append_assoc]
    · refine ⟨"PR #" ++ String.mk u.digits ++ " in " ++ String.mk u.owner ++ "/" ++
        String.mk u.repo ++ "\nTitle: " ++ pr.title ++ "\nAuthor: ",
        "\nState: " ++ pr.state ++ " " ++ (if pr.draft then "(Draft)" else "") ++
        "\nDescription: " ++ descText pr.body ++
        "\nFiles changed: " ++ toString pr.changed_files ++ " files (" ++
          toString pr.additions ++ " additions, " ++ toString pr.deletions ++
        " deletions)\nFiles: " ++ joinSep ", " (pr.files.take 10) ++
        "\nMerge status: " ++ (if pr.merged then "Merged" else "Not merged") ++
        "\nComments: " ++ commentsText pr.comments, ?_⟩
      rw [htext]
      simp [prSummary, String.append_assoc]
    · refine ⟨"PR #" ++ String.mk u.digits ++ " in " ++ String.mk u.owner ++ "/" ++
        String.mk u.repo ++ "\nTitle: " ++ pr.title ++ "\nAuthor: " ++ pr.author ++
        "\nState: " ++ pr.state ++ " " ++ (if pr.draft then "(Draft)" else "") ++
        "\nDescription: " ++ descText pr.body ++ "\nFiles changed: ",
        " files (" ++ toString pr.additions ++ " additions, " ++ toString pr.deletions ++
        " deletions)\nFiles: " ++ joinSep ", " (pr.files.take 10) ++
        "\nMerge status: " ++ (if pr.merged then "Merged" else "Not merged") ++
        "\nComments: " ++ commentsText pr.comments, ?_⟩
      rw [htext]
      simp [prSummary, String.append_assoc]
  · intro u e hu herr
    constructor <;> simp [fetch_pr_info, hu, herr]

/-- C4 witness: a malformed input returns the diagnostic without touching the
network, and a well-formed URL with a successful provider returns a snapshot
containing the PR number, author and file count. -/
theorem C4_fetch_pr_info_validation_witness :
    ((fetch_pr_info "not-a-url" (fun _ _ _ => .error "unreachable")).text
        = "Invalid PR URL format: not-a-url" ∧
      (fetch_pr_info "not-a-url" (fun _ _ _ => .error "unreachable")).networkCalled = false) ∧
    ((fetch_pr_info "https://github.com/o/r/pull/123"
        (fun _ _ _ => .ok ⟨"Add parser", "alice", "open", false, some "desc", 3, 10, 2,
          ["a.py"], false, []⟩)).networkCalled = true ∧
      strContains (fetch_pr_info "https://github.com/o/r/pull/123"
        (fun _ _ _ => .ok ⟨"Add parser", "alice", "open", false, some "desc", 3, 10, 2,
          ["a.py"], false, []⟩)).text (String.mk "123".data) ∧
      strContains (fetch_pr_info "https://github.com/o/r/pull/123"
        (fun _ _ _ => .ok ⟨"Add parser", "alice", "open", false, some "desc", 3, 10, 2,
          ["a.py"], false, []⟩)).text "alice" ∧
      strContains (fetch_pr_info "https://github.com/o/r/pull/123"
        (fun _ _ _ => .ok ⟨"Add parser", "alice", "open", false, some "desc", 3, 10, 2,
          ["a.py"], false, []⟩)).text (toString (3 : Nat))) := by
  constructor
  · exact (C4_fetch_pr_info_validation "not-a-url" (fun _ _ _ => .error "unreachable")).2.1 rfl
  · have h := (C4_fetch_pr_info_validation "https://github.com/o/r/pull/123"
      (fun _ _ _ => .ok ⟨"Add parser", "alice", "open", false, some "desc", 3, 10, 2,
        ["a.py"], false, []⟩)).2.2.1
      ⟨"o".data, "r".data, "123".data, []⟩
      ⟨"Add parser", "alice", "open", false, some "desc", 3, 10, 2, ["a.py"], false, []⟩
      (by rfl) (by rfl)
    exact h

/-- C10: `extract_pr_url_and_request` raises `ValueError` exactly when the
input contains no substring of the PR-URL shape; otherwise it returns the
first (leftmost) such URL together with the input minus that one URL
occurrence stripped of surrounding whitespace, substituting the default
request exactly when that remainder is empty — so the returned request is
non-empty whenever the default is. -/
theorem C10_extract_pr_url (raw dflt : String) :
    (extract_pr_url_and_request raw dflt
        = .error "No GitHub pull request URL found in input. Please provide a valid GitHub PR URL."
      ↔ ¬ ∃ pre mid post : List Char, raw.data = pre ++ mid ++ post ∧ UrlShape urlChar mid) ∧
    (∀ url req : String, extract_pr_url_and_request raw dflt = .ok (url, req) →
      ∃ pre post : List Char, raw.data = pre ++ url.data ++ post ∧
        UrlShape urlChar url.data ∧
        (∀ pre2 mid post2 : List Char, raw.data = pre2 ++ mid ++ post2 →
          UrlShape urlChar mid → pre.length ≤ pre2.length) ∧
        req = (if String.mk (pyStrip (pre ++ post)) = "" then dflt
               else String.mk (pyStrip (pre ++ post))) ∧
        (dflt ≠ "" → req ≠ "")) := by
  have hslash : urlChar '/' = false := rfl
  cases hs : reSearch urlChar raw.data with
  | none =>
    constructor
    · constructor
      · intro _ hex
        obtain ⟨pre, mid, post, heq, hsh⟩ := hex
        exact reSearch_none_no_shape hslash raw.data hs pre mid post heq hsh
      · intro _
        simp [extract_pr_url_and_request, hs]
    · intro url req hok
      simp [extract_pr_url_and_request, hs] at hok
  | some t =>
    obtain ⟨pre, m, rest⟩ := t
    obtain ⟨heq, hshape, hmin⟩ := reSearch_some_sound hslash raw.data pre m rest hs
    constructor
    · constructor
      · intro habs
        exfalso
        simp [extract_pr_url_and_request, hs] at habs
      · intro hno
        exact absurd ⟨pre, m, rest, heq, hshape⟩ hno
    · intro url req hok
      have hok2 : String.mk m = url ∧
          (if String.mk (pyStrip (removeFirst raw.data m)) = "" then dflt
           else String.mk (pyStrip (removeFirst raw.data m))) = req := by
        simpa [extract_pr_url_and_request, hs] using hok
      obtain ⟨hurl, hreq⟩ := hok2
      subst hurl
      have hrm : removeFirst raw.data m = pre ++ rest := by
        have hminm : ∀ pre2 post2 : List Char, pre ++ m ++ rest = pre2 ++ m ++ post2 →
            pre.length ≤ pre2.length := by
          intro pre2 post2 he
          exact hmin pre2 m post2 (by rw [heq, he]) hshape
        rw [heq]
        exact removeFirst_of_min (UrlShape.ne_nil hshape) pre rest hminm
      rw [hrm] at hreq
      refine ⟨pre, rest, heq, hshape, hmin, hreq.symm, ?_⟩
      intro hd
      rw [← hreq]
      by_cases hc : String.mk (pyStrip (pre ++ rest)) = ""
      · rw [if_pos hc]
        exact hd
      · rw [if_neg hc]
        exact hc

/-- C10 witness: a concrete input with leading and trailing request text. -/
theorem C10_extract_pr_url_witness :
    ∃ pre post : List Char,
      "see https://github.com/a/b/pull/7 now".data
        = pre ++ "https://github.com/a/b/pull/7".data ++ post ∧
      UrlShape urlChar "https://github.com/a/b/pull/7".data ∧
      (∀ pre2 mid post2 : List Char,
        "see https://github.com/a/b/pull/7 now".data = pre2 ++ mid ++ post2 →
        UrlShape urlChar mid → pre.length ≤ pre2.length) ∧
      "see  now" = (if String.mk (pyStrip (pre ++ post)) = "" then "task"
                    else String.mk (pyStrip (pre ++ post))) ∧
      ("task" ≠ "" → "see  now" ≠ "") :=
  (C10_extract_pr_url "see https://github.com/a/b/pull/7 now" "task").2
    "https://github.com/a/b/pull/7" "see  now" (by rfl)

end PRSummarizer
